import Mathlib

/-!
Verification of the nerve coordinator core (agent registry, scheduler,
task executor) against its natural-language specification.

The Go sources are shallowly embedded: the mutex-guarded Go maps
`Registry.agents` and `Scheduler.tasks` become association lists over
`String` keys, `time.Time` becomes `Nat` (seconds), and each Go method
becomes a pure state-passing function.  Fields of `AgentInfo` that the
core never inspects (SN, Product, Brand, Netcard, Disk, Raid, the IP
fields, OS, GPU fields, DiskInfo, MemoryInfo, CPUInfo, GPUInfo,
NetworkInfo, UpdateTime, AgentVersion, Basearch, Memsum) are collapsed
into one opaque attribute list `attrs`; the fields the handlers touch
individually (hostname, cpuType, cpuLogic, memory, status, registeredAt,
lastSeen) are kept as record fields.  Go map iteration order is
unspecified; the association list fixes insertion order, and every
theorem below is insensitive to that order.
-/

namespace Nerve

/-- Association-list lookup, mirroring a read of a Go `map[string]V`.
Returns the first binding of the key. -/
def mapFind {α : Type} : List (String × α) → String → Option α
  | [], _ => none
  | (k', v) :: rest, k => if k' = k then some v else mapFind rest k

/-- Association-list store, mirroring a Go `m[k] = v` assignment:
replaces the first binding of the key, or appends a new binding. -/
def mapSet {α : Type} : List (String × α) → String → α → List (String × α)
  | [], k, v => [(k, v)]
  | (k', v') :: rest, k, v =>
    if k' = k then (k, v) :: rest else (k', v') :: mapSet rest k v

/-- AgentInfo from server/core/registry.go.  The fields the core logic
reads or writes individually are kept; the remaining opaque hardware
descriptor fields are collapsed into `attrs` (the core only copies them
wholesale, never inspects them). -/
structure AgentInfo where
  id : String
  hostname : String
  cpuType : String
  cpuLogic : Int
  memory : String
  status : String
  registeredAt : Nat
  lastSeen : Nat
  attrs : List (String × String)
deriving DecidableEq, Repr

/-- Task from server/core/registry.go.  `params` stands for the opaque
parameter bag (never inspected by the scheduler). -/
structure Task where
  id : String
  agentId : String
  ttype : String
  command : String
  script : String
  plugin : String
  params : List (String × String)
  timeout : Int
  status : String
deriving DecidableEq, Repr

/-- TaskResult from server/core/registry.go. -/
structure TaskResult where
  taskId : String
  success : Bool
  output : String
  error : String
deriving DecidableEq, Repr

/-- State of `Registry.agents : map[string]*AgentInfo`. -/
abbrev RegState := List (String × AgentInfo)

/-- State of `Scheduler.tasks : map[string]*Task`. -/
abbrev TaskStore := List (String × Task)

/-- Registry.Register: uses the hostname as id, forces the stored
agent's ID field to that id, and stores it (overwriting any previous
entry under the same hostname).  Returns the id. -/
def Registry.Register (m : RegState) (agent : AgentInfo) : String × RegState :=
  let id := agent.hostname
  (id, mapSet m id { agent with id := id })

/-- Registry.Update: when the id is present, the stored entry is
overwritten with the supplied value (`*existing = *agent`) and its ID
field forced back to the map key; when absent, nothing happens. -/
def Registry.Update (m : RegState) (id : String) (agent : AgentInfo) : RegState :=
  match mapFind m id with
  | some _ => mapSet m id { agent with id := id }
  | none => m

/-- Registry.Get: map read (`nil` pointer becomes `none`). -/
def Registry.Get (m : RegState) (id : String) : Option AgentInfo :=
  mapFind m id

/-- Offline threshold from Registry.cleanupStaleAgents:
`now.Sub(agent.LastSeen) > 5*time.Minute`, in seconds. -/
def offlineThreshold : Nat := 300

/-- Sweep tick period from Registry.cleanupStaleAgents:
`time.NewTicker(1 * time.Minute)`, in seconds. -/
def sweepInterval : Nat := 60

/-- Body of one sweep pass for one agent: agents silent for more than
the threshold get status set to offline, others are untouched.
`time.Duration` is signed; with `Nat` truncated subtraction
`now - lastSeen > 300` agrees with the signed comparison, because a
negative difference and a truncated-to-zero difference both fail it. -/
def sweepAgent (now : Nat) (a : AgentInfo) : AgentInfo :=
  if now - a.lastSeen > offlineThreshold then { a with status := "offline" } else a

/-- Registry.cleanupStaleAgents: one pass of the 1-minute ticker loop
over every entry of the agents map.  It only assigns `Status`; it never
deletes from the map. -/
def Registry.cleanupStaleAgents (now : Nat) (m : RegState) : RegState :=
  m.map (fun p => (p.1, sweepAgent now p.2))

/-- Scheduler.SubmitTask: sets status to pending and stores the task by
its id.  No registry lookup and no error path exist in the source. -/
def Scheduler.SubmitTask (s : TaskStore) (task : Task) : TaskStore :=
  mapSet s task.id { task with status := "pending" }

/-- Scheduler.GetPendingTasks: under a read lock, collects the tasks of
the given agent whose status is pending.  It mutates nothing, so the
store passed to any later call is unchanged.  Go map iteration order is
unspecified; the list order here is insertion order, and no theorem
below depends on it. -/
def Scheduler.GetPendingTasks (s : TaskStore) (agentID : String) : List Task :=
  (s.map Prod.snd).filter (fun t => t.agentId == agentID && t.status == "pending")

/-- Scheduler.MarkTaskDone: unknown ids are silently ignored; a known
task has its status set to "completed" whatever its previous status and
whatever the success flag; output and error only reach the log, and the
Task record has no result field to store them in. -/
def Scheduler.MarkTaskDone (s : TaskStore) (taskID : String)
    (success : Bool) (output errMsg : String) : TaskStore :=
  match mapFind s taskID with
  | none => s
  | some task => mapSet s taskID { task with status := "completed" }

/-- Scheduler.GetTasksByStatus: read-only filter over the store. -/
def Scheduler.GetTasksByStatus (s : TaskStore) (status : String) : List Task :=
  (s.map Prod.snd).filter (fun t => t.status == status)

/-- Scheduler.ScheduleHook: builds a hook task and submits it.  The
generated task id (`generateTaskID`, a timestamp string) is passed in
as `tid`. -/
def Scheduler.ScheduleHook (s : TaskStore) (tid agentID plugin : String)
    (params : List (String × String)) : TaskStore :=
  Scheduler.SubmitTask s
    { id := tid, agentId := agentID, ttype := "hook", command := "", script := "",
      plugin := plugin, params := params, timeout := 0, status := "pending" }

/-- Scheduler.ScheduleCommand: builds a command task and submits it. -/
def Scheduler.ScheduleCommand (s : TaskStore) (tid agentID command : String)
    (timeout : Int) : TaskStore :=
  Scheduler.SubmitTask s
    { id := tid, agentId := agentID, ttype := "command", command := command, script := "",
      plugin := "", params := [], timeout := timeout, status := "pending" }

/-- Registration request body from APIRouter.registerAgent
(server/api/router.go), with the opaque hardware fields collapsed into
`attrs` as in `AgentInfo`. -/
structure RegisterRequest where
  hostname : String
  cpuType : String
  cpuLogic : Int
  memory : String
  attrs : List (String × String)
deriving DecidableEq, Repr

/-- APIRouter.registerAgent (the path where binding and the token check
succeed and the registry is non-nil): builds an AgentInfo with
status online, registeredAt and lastSeen stamped with the handler's
clock reading, and an ID of `hostname ++ "-" ++ suffix` (the random
suffix from generateRandomID is passed in), then calls
Registry.Register — which discards that ID in favour of the hostname.
Returns the id from Register together with the new registry state. -/
def APIRouter.registerAgent (now : Nat) (suffix : String)
    (req : RegisterRequest) (m : RegState) : String × RegState :=
  let info : AgentInfo :=
    { id := req.hostname ++ "-" ++ suffix
      hostname := req.hostname
      cpuType := req.cpuType
      cpuLogic := req.cpuLogic
      memory := req.memory
      status := "online"
      registeredAt := now
      lastSeen := now
      attrs := req.attrs }
  Registry.Register m info

/-- Decoded `system_info` of a heartbeat: the four keys the handler
type-asserts out of the map, `none` when the key is absent or of the
wrong dynamic type. -/
structure SystemInfo where
  hostname : Option String
  cpuType : Option String
  cpuLogic : Option Int
  memory : Option String
deriving DecidableEq, Repr

/-- Heartbeat request body from APIRouter.agentHeartbeat. -/
structure HeartbeatData where
  status : String
  systemInfo : Option SystemInfo
deriving DecidableEq, Repr

/-- Field merge the handler performs from `system_info` onto the agent. -/
def applySystemInfo (si : SystemInfo) (a : AgentInfo) : AgentInfo :=
  let a1 := match si.hostname with
    | some h => { a with hostname := h }
    | none => a
  let a2 := match si.cpuType with
    | some c => { a1 with cpuType := c }
    | none => a1
  let a3 := match si.cpuLogic with
    | some c => { a2 with cpuLogic := c }
    | none => a2
  match si.memory with
  | some mm => { a3 with memory := mm }
  | none => a3

/-- In-place mutation APIRouter.agentHeartbeat performs on the agent it
found: lastSeen is stamped with the handler's clock reading, status is
taken from the body (defaulting to online when empty), then the
system-info fields are merged. -/
def heartbeatMutate (now : Nat) (hb : HeartbeatData) (a : AgentInfo) : AgentInfo :=
  let a1 := { a with lastSeen := now }
  let a2 :=
    if hb.status ≠ "" then { a1 with status := hb.status }
    else { a1 with status := "online" }
  match hb.systemInfo with
  | some si => applySystemInfo si a2
  | none => a2

/-- Hostname scan used by the token-based heartbeat fallback
(`registry.List()` followed by a linear search); returns the map key
and the agent.  The Go scan order is map order, unspecified; list order
is used here and none of the theorems depend on it. -/
def findKeyByHostname : RegState → String → Option (String × AgentInfo)
  | [], _ => none
  | (k, a) :: rest, h => if a.hostname = h then some (k, a) else findKeyByHostname rest h

/-- APIRouter.agentHeartbeat (the path where body binding succeeds and
the registry is non-nil).  Returns the HTTP status code and the
registry state after the handler.  The handler mutates the agent
through the live pointer obtained from Get or List — modelled as a
`mapSet` at the entry's key — and then calls Registry.Update with the
agent's ID field.  Unknown ids fall through to the 200 response with
the registry untouched. -/
def APIRouter.agentHeartbeat (now : Nat) (agentID : String)
    (hb : HeartbeatData) (m : RegState) : Nat × RegState :=
  if agentID ≠ "" then
    match Registry.Get m agentID with
    | some a =>
      let a' := heartbeatMutate now hb a
      (200, Registry.Update (mapSet m agentID a') agentID a')
    | none => (200, m)
  else
    match hb.systemInfo with
    | some si =>
      match si.hostname with
      | some hn =>
        if hn ≠ "" then
          match findKeyByHostname m hn with
          | some (k, a) =>
            let a' := heartbeatMutate now hb a
            (200, Registry.Update (mapSet m k a') a'.id a')
          | none => (200, m)
        else (200, m)
      | none => (200, m)
    | none => (200, m)

/-- Outcome of running an external process under a wall-clock deadline
(agent/core/task_executor.go uses `exec.CommandContext` with a
`context.WithTimeout` context): either the process finishes within the
deadline with an exit code and combined output, or it runs past the
deadline and is killed, leaving whatever output it produced. -/
inductive ExecOutcome where
  | finished (exitCode : Nat) (output : String)
  | killedOnDeadline (output : String)
deriving DecidableEq, Repr

/-- Error value carried by the `error` returned from
`cmd.CombinedOutput()`. -/
inductive GoExecError where
  | exitStatus (code : Nat)
  | signalKilled
  | deadlineExceeded
deriving DecidableEq, Repr

/-- Text of `err.Error()` for each error value, as the Go standard
library renders it. -/
def GoExecError.message : GoExecError → String
  | .exitStatus code => "exit status " ++ toString code
  | .signalKilled => "signal: killed"
  | .deadlineExceeded => "context deadline exceeded"

/-- Semantics of `cmd.CombinedOutput()` for a command built with
`exec.CommandContext`: a zero exit yields a nil error; a non-zero exit
yields an ExitError carrying the exit status; and when the context's
deadline expires mid-run, os/exec kills the process and Wait returns
the ExitError of the killed process — `err.Error()` is
"signal: killed" — not the context error.  `context.DeadlineExceeded`
is only ever returned when the deadline had already expired before the
process was started. -/
def combinedOutput : ExecOutcome → String × Option GoExecError
  | .finished exitCode output =>
    (output, if exitCode = 0 then none else some (.exitStatus exitCode))
  | .killedOnDeadline output => (output, some .signalKilled)

/-- Timeout selection shared by the executor methods: a positive task
timeout (seconds) wins over the executor's default. -/
def effectiveTimeout (defaultTimeout : Nat) (timeout : Int) : Nat :=
  if timeout > 0 then timeout.toNat else defaultTimeout

/-- TaskExecutor.ExecuteCommand: runs the command through the shell
under the deadline; success is `err == nil`; the error text is the
timeout message only when the returned error is the sentinel
`context.DeadlineExceeded`, and `err.Error()` otherwise.  (Duration
formatting of the message is abbreviated to the seconds count.) -/
def TaskExecutor.ExecuteCommand (defaultTimeout : Nat) (command : String)
    (timeout : Int) (outcome : ExecOutcome) : TaskResult :=
  let t := effectiveTimeout defaultTimeout timeout
  let r := combinedOutput outcome
  { taskId := ""
    success := r.2.isNone
    output := r.1
    error :=
      match r.2 with
      | none => ""
      | some e =>
        if e = GoExecError.deadlineExceeded then
          "command timeout after " ++ toString t ++ "s"
        else e.message }

/-- Observable filesystem events of one ExecuteScript call, in program
order. -/
inductive ScriptEvent where
  | created (n : String)
  | wrote (n : String)
  | madeExecutable (n : String)
  | executed (n : String)
  | removed (n : String)
deriving DecidableEq, Repr

/-- Environment responses consumed by one ExecuteScript call: the
unique fresh name `os.CreateTemp` picks (`nerve-script-*.sh` pattern),
whether each filesystem call succeeds, and the process outcome. -/
structure ScriptEnv where
  tmpName : String
  createOk : Bool
  writeOk : Bool
  chmodOk : Bool
  outcome : ExecOutcome
deriving DecidableEq, Repr

/-- TaskExecutor.ExecuteScript: materializes the script body to the
temporary file, makes it executable (chmod 0755), runs it under the
deadline, and removes the file via the `defer os.Remove` registered
immediately after creation — so every return path after a successful
creation removes the file.  The filesystem is the list of existing
file names; the call returns the result, the final filesystem, and the
event trace. -/
def TaskExecutor.ExecuteScript (defaultTimeout : Nat) (script : String)
    (timeout : Int) (fs : List String) (env : ScriptEnv) :
    TaskResult × List String × List ScriptEvent :=
  let t := effectiveTimeout defaultTimeout timeout
  if env.createOk = false then
    ({ taskId := "", success := false, output := "", error := "create temp file failed" },
     fs, [])
  else
    let n := env.tmpName
    let fs1 := n :: fs
    if env.writeOk = false then
      ({ taskId := "", success := false, output := "", error := "write temp file failed" },
       fs1.erase n, [.created n, .removed n])
    else if env.chmodOk = false then
      ({ taskId := "", success := false, output := "", error := "chmod temp file failed" },
       fs1.erase n, [.created n, .wrote n, .removed n])
    else
      let r := combinedOutput env.outcome
      ({ taskId := ""
         success := r.2.isNone
         output := r.1
         error :=
           match r.2 with
           | none => ""
           | some e =>
             if e = GoExecError.deadlineExceeded then
               "script timeout after " ++ toString t ++ "s"
             else e.message },
       fs1.erase n, [.created n, .wrote n, .madeExecutable n, .executed n, .removed n])

/-- Sequential processing of one agent's heartbeats at the given
clock readings (each reading is the value of `time.Now()` when the
corresponding request is handled). -/
def runHeartbeats (agentID : String) (hb : HeartbeatData) (ts : List Nat)
    (m : RegState) : RegState :=
  ts.foldl (fun st now => (APIRouter.agentHeartbeat now agentID hb st).2) m

/-- Sample task targeted at agent i1, used to instantiate theorems. -/
def taskEx : Task :=
  { id := "t1", agentId := "i1", ttype := "command", command := "echo ok",
    script := "", plugin := "", params := [], timeout := 30, status := "pending" }

/-- Sample task already in the dispatched state. -/
def dispatchedTaskEx : Task :=
  { taskEx with id := "t2", status := "dispatched" }

/-- Sample task targeted at an agent id that is nowhere registered. -/
def ghostTaskEx : Task :=
  { taskEx with id := "t5", agentId := "ghost" }

/-- Sample registered agent. -/
def agentEx : AgentInfo :=
  { id := "h1", hostname := "h1", cpuType := "x86", cpuLogic := 8,
    memory := "16G", status := "online", registeredAt := 0, lastSeen := 10,
    attrs := [] }

/-- Sample heartbeat body with an empty status and no system info. -/
def hbEx : HeartbeatData := { status := "", systemInfo := none }

/-- Sample registration request. -/
def reqEx : RegisterRequest :=
  { hostname := "h1", cpuType := "x86", cpuLogic := 8, memory := "16G", attrs := [] }

/-- Sample script-execution environment where every step succeeds. -/
def scriptEnvEx : ScriptEnv :=
  { tmpName := "nerve-script-123.sh", createOk := true, writeOk := true,
    chmodOk := true, outcome := ExecOutcome.finished 0 "ok" }

theorem mapFind_mapSet {α : Type} (m : List (String × α)) (k k' : String) (v : α) :
    mapFind (mapSet m k v) k' = if k = k' then some v else mapFind m k' := by
  induction m with
  | nil =>
    by_cases h : k = k' <;> simp [mapSet, mapFind, h]
  | cons p rest ih =>
    obtain ⟨a, b⟩ := p
    by_cases h1 : a = k
    · subst h1
      by_cases h2 : a = k' <;> simp [mapSet, mapFind, h2]
    · by_cases h2 : a = k'
      · subst h2
        have hk : ¬ k = a := fun hh => h1 hh.symm
        simp [mapSet, mapFind, h1, hk]
      · simp [mapSet, mapFind, h1, h2, ih]

theorem mapFind_mapSet_self {α : Type} (m : List (String × α)) (k : String) (v : α) :
    mapFind (mapSet m k v) k = some v := by
  simp [mapFind_mapSet]

theorem mapFind_mapSet_ne {α : Type} (m : List (String × α)) (k k' : String) (v : α)
    (h : k ≠ k') : mapFind (mapSet m k v) k' = mapFind m k' := by
  simp [mapFind_mapSet, h]

theorem length_mapSet_of_found {α : Type} (m : List (String × α)) (k : String) (v w : α)
    (h : mapFind m k = some w) : (mapSet m k v).length = m.length := by
  induction m with
  | nil => simp [mapFind] at h
  | cons p rest ih =>
    obtain ⟨a, b⟩ := p
    by_cases h1 : a = k
    · simp [mapSet, h1]
    · simp [mapFind, h1] at h
      simp [mapSet, h1, ih h]

theorem snd_mem_mapSet {α : Type} (m : List (String × α)) (k : String) (v : α) :
    v ∈ (mapSet m k v).map Prod.snd := by
  induction m with
  | nil => simp [mapSet]
  | cons p rest ih =>
    obtain ⟨a, b⟩ := p
    by_cases h1 : a = k
    · simp [mapSet, h1]
    · simp only [mapSet, h1, if_false, List.map_cons, List.mem_cons]
      exact Or.inr ih

theorem mapFind_map_value {α β : Type} (f : α → β) (m : List (String × α)) (k : String) :
    mapFind (m.map (fun p => (p.1, f p.2))) k = (mapFind m k).map f := by
  induction m with
  | nil => simp [mapFind]
  | cons p rest ih =>
    obtain ⟨a, b⟩ := p
    by_cases h1 : a = k <;> simp [mapFind, h1, ih]

/-- Claim C1, counterexample.  The claim says GetPendingTasks marks the
returned tasks dispatched as part of the same atomic step, so that
after submitting one pending task for agent i1 the second of two
back-to-back calls returns an empty list.  GetPendingTasks only reads
under an RLock and changes no status, so the store the second call
sees is the very same store, and the second call returns the task
again, not an empty list. -/
theorem getPendingTasks_redelivers :
    Scheduler.GetPendingTasks (Scheduler.SubmitTask [] taskEx) "i1" = [taskEx]
    ∧ Scheduler.GetPendingTasks (Scheduler.SubmitTask [] taskEx) "i1" ≠ [] := by
  decide

/-- Claim C1, amended.  GetPendingTasks returns exactly the stored
tasks of the agent whose status is pending and performs no state
change, so every retrieval — the second back-to-back call included —
returns a submitted pending task again (there is no dispatched
marking and no at-most-once delivery). -/
theorem getPendingTasks_read_only (s : TaskStore) (a : String) (t : Task)
    (ht : t.agentId = a) :
    (∀ u, u ∈ Scheduler.GetPendingTasks s a ↔
        (u ∈ s.map Prod.snd ∧ u.agentId = a ∧ u.status = "pending"))
    ∧ { t with status := "pending" } ∈
        Scheduler.GetPendingTasks (Scheduler.SubmitTask s t) a
    ∧ Scheduler.GetPendingTasks (Scheduler.SubmitTask s t) a ≠ [] := by
  have hmem : ∀ (s' : TaskStore) (u : Task), u ∈ Scheduler.GetPendingTasks s' a ↔
      (u ∈ s'.map Prod.snd ∧ u.agentId = a ∧ u.status = "pending") := by
    intro s' u
    simp [Scheduler.GetPendingTasks, List.mem_filter, and_assoc]
  have hin : { t with status := "pending" } ∈
      Scheduler.GetPendingTasks (Scheduler.SubmitTask s t) a := by
    rw [hmem]
    refine ⟨snd_mem_mapSet s t.id _, ?_, rfl⟩
    simpa using ht
  exact ⟨hmem s, hin, List.ne_nil_of_mem hin⟩

/-- Claim C1, witness for the amended theorem at a concrete store. -/
theorem getPendingTasks_read_only_witness :
    (∀ u, u ∈ Scheduler.GetPendingTasks [] "i1" ↔
        (u ∈ ([] : TaskStore).map Prod.snd ∧ u.agentId = "i1" ∧ u.status = "pending"))
    ∧ { taskEx with status := "pending" } ∈
        Scheduler.GetPendingTasks (Scheduler.SubmitTask [] taskEx) "i1"
    ∧ Scheduler.GetPendingTasks (Scheduler.SubmitTask [] taskEx) "i1" ≠ [] :=
  getPendingTasks_read_only [] "i1" taskEx (by decide)

/-- Claim C2, counterexample.  A result report for a task in the
dispatched state is claimed to move it to succeeded or failed and to
record the result; MarkTaskDone instead stores the status "completed",
which is neither succeeded nor failed, and the Task record holds no
result at all. -/
theorem markTaskDone_not_final_states :
    mapFind (Scheduler.MarkTaskDone [("t2", dispatchedTaskEx)] "t2" true "ok" "") "t2"
      = some { dispatchedTaskEx with status := "completed" }
    ∧ ("completed" : String) ≠ "succeeded"
    ∧ ("completed" : String) ≠ "failed" := by
  decide

/-- Claim C2, amended.  MarkTaskDone sets the status of any stored
task to "completed" whatever its previous status and whatever the
success flag; it stores no output or error (the Task record has no
result field), leaves every other task untouched, silently ignores
unknown ids instead of reporting NotFound, and therefore does not
reject a repeated report — the second report just re-stores
"completed". -/
theorem markTaskDone_overwrites (s : TaskStore) (tid : String) (b : Bool)
    (out err : String) (t : Task) (h : mapFind s tid = some t) :
    mapFind (Scheduler.MarkTaskDone s tid b out err) tid
      = some { t with status := "completed" }
    ∧ (∀ tid', tid' ≠ tid →
        mapFind (Scheduler.MarkTaskDone s tid b out err) tid' = mapFind s tid')
    ∧ (∀ s' : TaskStore, mapFind s' tid = none →
        Scheduler.MarkTaskDone s' tid b out err = s') := by
  refine ⟨?_, ?_, ?_⟩
  · simp [Scheduler.MarkTaskDone, h, mapFind_mapSet_self]
  · intro tid' hne
    simp [Scheduler.MarkTaskDone, h, mapFind_mapSet_ne _ _ _ _ (fun e => hne e.symm)]
  · intro s' h'
    simp [Scheduler.MarkTaskDone, h']

/-- Claim C2, witness for the amended theorem at a concrete store. -/
theorem markTaskDone_overwrites_witness :
    mapFind (Scheduler.MarkTaskDone [("t2", dispatchedTaskEx)] "t2" true "ok" "") "t2"
      = some { dispatchedTaskEx with status := "completed" }
    ∧ (∀ tid', tid' ≠ "t2" →
        mapFind (Scheduler.MarkTaskDone [("t2", dispatchedTaskEx)] "t2" true "ok" "") tid'
          = mapFind [("t2", dispatchedTaskEx)] tid')
    ∧ (∀ s' : TaskStore, mapFind s' "t2" = none →
        Scheduler.MarkTaskDone s' "t2" true "ok" "" = s') :=
  markTaskDone_overwrites [("t2", dispatchedTaskEx)] "t2" true "ok" "" dispatchedTaskEx
    (by decide)

/-- Claim C3, counterexample.  The claim allows only the statuses
pending, dispatched, succeeded, failed and cancelled, and forbids
skipping the dispatched state.  MarkTaskDone moves a pending task
directly to "completed", a status outside the claimed set. -/
theorem status_outside_lifecycle :
    mapFind (Scheduler.MarkTaskDone [("t1", taskEx)] "t1" true "" "") "t1"
      = some { taskEx with status := "completed" }
    ∧ taskEx.status = "pending"
    ∧ ("completed" : String) ∉
        ["pending", "dispatched", "succeeded", "failed", "cancelled"] := by
  decide

/-- Claim C3, amended.  The scheduler's operations assign exactly two
statuses: SubmitTask (and through it ScheduleHook and ScheduleCommand)
stores "pending", and MarkTaskDone stores "completed" — "dispatched",
"succeeded", "failed" and "cancelled" are never assigned (no cancel
operation exists).  MarkTaskDone moves a pending task directly to
"completed", and SubmitTask resets a task of any status back to
"pending" when the same id is submitted again, so the lifecycle is
neither gap-free nor monotone; every task the two operations leave in
the store either kept its old binding or carries one of the two
assigned statuses. -/
theorem scheduler_status_range (s : TaskStore) (t : Task) (tid : String) (b : Bool)
    (out err : String) (u : Task) (h : mapFind s tid = some u)
    (hu : u.status = "pending") :
    mapFind (Scheduler.SubmitTask s t) t.id = some { t with status := "pending" }
    ∧ mapFind (Scheduler.MarkTaskDone s tid b out err) tid
        = some { u with status := "completed" }
    ∧ (∀ k w, mapFind (Scheduler.SubmitTask s t) k = some w →
        w.status = "pending" ∨ mapFind s k = some w)
    ∧ (∀ k w, mapFind (Scheduler.MarkTaskDone s tid b out err) k = some w →
        w.status = "completed" ∨ mapFind s k = some w) := by
  refine ⟨by simp [Scheduler.SubmitTask, mapFind_mapSet_self],
    by simp [Scheduler.MarkTaskDone, h, mapFind_mapSet_self], ?_, ?_⟩
  · intro k w hw
    rw [Scheduler.SubmitTask, mapFind_mapSet] at hw
    by_cases hk : t.id = k
    · simp [hk] at hw
      left
      rw [← hw]
    · simp [hk] at hw
      exact Or.inr hw
  · intro k w hw
    rw [Scheduler.MarkTaskDone, h, mapFind_mapSet] at hw
    by_cases hk : tid = k
    · simp [hk] at hw
      left
      rw [← hw]
    · simp [hk] at hw
      exact Or.inr hw

/-- Claim C3, witness for the amended theorem at a concrete store. -/
theorem scheduler_status_range_witness :
    mapFind (Scheduler.SubmitTask [("t1", taskEx)] ghostTaskEx) ghostTaskEx.id
      = some { ghostTaskEx with status := "pending" }
    ∧ mapFind (Scheduler.MarkTaskDone [("t1", taskEx)] "t1" false "" "boom") "t1"
        = some { taskEx with status := "completed" }
    ∧ (∀ k w, mapFind (Scheduler.SubmitTask [("t1", taskEx)] ghostTaskEx) k = some w →
        w.status = "pending" ∨ mapFind [("t1", taskEx)] k = some w)
    ∧ (∀ k w, mapFind (Scheduler.MarkTaskDone [("t1", taskEx)] "t1" false "" "boom") k
          = some w →
        w.status = "completed" ∨ mapFind [("t1", taskEx)] k = some w) :=
  scheduler_status_range [("t1", taskEx)] ghostTaskEx "t1" false "" "boom" taskEx
    (by decide) (by decide)

/-- Claim C5, counterexample.  With an empty registry — so the target
agent "ghost" is certainly not registered — SubmitTask still stores
the task with status pending instead of rejecting it. -/
theorem submit_unknown_target_stored :
    Registry.Get ([] : RegState) "ghost" = none
    ∧ mapFind (Scheduler.SubmitTask [] ghostTaskEx) "t5"
        = some { ghostTaskEx with status := "pending" } := by
  decide

/-- Claim C5, amended.  SubmitTask performs no validation of the
target agent: it does not consult the registry at all and
unconditionally stores the task with status pending under its id, even
when the target agent id is absent from the registry; no error is
reported to the caller. -/
theorem submitTask_no_target_validation (r : RegState) (s : TaskStore) (t : Task)
    (h : Registry.Get r t.agentId = none) :
    mapFind (Scheduler.SubmitTask s t) t.id = some { t with status := "pending" } := by
  simp [Scheduler.SubmitTask, mapFind_mapSet_self]

/-- Claim C5, witness for the amended theorem at a concrete state. -/
theorem submitTask_no_target_validation_witness :
    mapFind (Scheduler.SubmitTask [] ghostTaskEx) ghostTaskEx.id
      = some { ghostTaskEx with status := "pending" } :=
  submitTask_no_target_validation [] [] ghostTaskEx (by decide)

theorem applySystemInfo_lastSeen (si : SystemInfo) (a : AgentInfo) :
    (applySystemInfo si a).lastSeen = a.lastSeen := by
  obtain ⟨ho, co, lo, mo⟩ := si
  cases ho <;> cases co <;> cases lo <;> cases mo <;> rfl

theorem applySystemInfo_id (si : SystemInfo) (a : AgentInfo) :
    (applySystemInfo si a).id = a.id := by
  obtain ⟨ho, co, lo, mo⟩ := si
  cases ho <;> cases co <;> cases lo <;> cases mo <;> rfl

theorem heartbeatMutate_lastSeen (now : Nat) (hb : HeartbeatData) (a : AgentInfo) :
    (heartbeatMutate now hb a).lastSeen = now := by
  unfold heartbeatMutate
  cases hb.systemInfo with
  | none => by_cases h : hb.status = "" <;> simp [h]
  | some si => by_cases h : hb.status = "" <;> simp [h, applySystemInfo_lastSeen]

/-- A heartbeat for a known, non-empty agent id stores the mutated
agent under that id (the live-pointer mutation followed by
Registry.Update collapses to one store at the key). -/
theorem agentHeartbeat_get_known (now : Nat) (id : String) (hb : HeartbeatData)
    (m : RegState) (a : AgentInfo) (hid : id ≠ "") (h : Registry.Get m id = some a) :
    Registry.Get (APIRouter.agentHeartbeat now id hb m).2 id
      = some { heartbeatMutate now hb a with id := id } := by
  unfold APIRouter.agentHeartbeat
  rw [if_pos hid]
  unfold Registry.Get at h
  simp only [Registry.Get, h]
  unfold Registry.Update
  rw [mapFind_mapSet_self]
  simp [Registry.Get, mapFind_mapSet_self]

/-- A heartbeat for a known agent also returns HTTP 200. -/
theorem agentHeartbeat_code_known (now : Nat) (id : String) (hb : HeartbeatData)
    (m : RegState) (a : AgentInfo) (hid : id ≠ "") (h : Registry.Get m id = some a) :
    (APIRouter.agentHeartbeat now id hb m).1 = 200 := by
  unfold APIRouter.agentHeartbeat
  rw [if_pos hid]
  unfold Registry.Get at h
  simp [Registry.Get, h]

/-- Across sequentially processed heartbeats whose clock readings are
non-decreasing from the agent's current lastSeen, lastSeen never
decreases. -/
theorem runHeartbeats_lastSeen_mono (id : String) (hb : HeartbeatData) (hid : id ≠ "") :
    ∀ (ts : List Nat) (m : RegState) (a : AgentInfo),
      Registry.Get m id = some a →
      List.Chain' (fun x y => x ≤ y) (a.lastSeen :: ts) →
      ∃ a', Registry.Get (runHeartbeats id hb ts m) id = some a'
        ∧ a.lastSeen ≤ a'.lastSeen := by
  intro ts
  induction ts with
  | nil =>
    intro m a h _
    exact ⟨a, h, le_refl _⟩
  | cons t ts' ih =>
    intro m a h hc
    rw [List.chain'_cons] at hc
    obtain ⟨hat, hc'⟩ := hc
    have hstep := agentHeartbeat_get_known t id hb m a hid h
    have hlast : ({ heartbeatMutate t hb a with id := id } : AgentInfo).lastSeen = t := by
      simpa using heartbeatMutate_lastSeen t hb a
    have hc2 : List.Chain'
        (fun x y => x ≤ y)
        (({ heartbeatMutate t hb a with id := id } : AgentInfo).lastSeen :: ts') := by
      rw [hlast]
      exact hc'
    obtain ⟨a', hget, hle⟩ := ih (APIRouter.agentHeartbeat t id hb m).2 _ hstep hc2
    refine ⟨a', ?_, le_trans hat (hlast ▸ hle)⟩
    simpa [runHeartbeats] using hget

/-- Claim C4, counterexample.  Registry.Update overwrites lastSeen
with whatever the supplied value carries: updating an agent whose
stored lastSeen is 10 with a snapshot carrying lastSeen 5 — exactly
what a later-processed but older heartbeat produces — regresses
lastSeen from 10 to 5. -/
theorem update_regresses_lastSeen :
    (Registry.Get (Registry.Update [("h1", agentEx)] "h1" { agentEx with lastSeen := 5 })
        "h1").map AgentInfo.lastSeen = some 5
    ∧ agentEx.lastSeen = 10
    ∧ ¬ (10 : Nat) ≤ 5 := by
  decide

/-- Claim C4, amended.  A heartbeat processed for a known agent stamps
lastSeen with the handler's own clock reading, so lastSeen is
non-decreasing across sequentially processed heartbeats under a
monotone clock; but Registry.Update stores the supplied lastSeen
verbatim — there is no max() merge and no per-agent serialization —
so an Update carrying an older snapshot regresses lastSeen. -/
theorem heartbeat_lastSeen_monotone (m : RegState) (id : String) (a : AgentInfo)
    (now : Nat) (hb : HeartbeatData) (hid : id ≠ "") (h : Registry.Get m id = some a) :
    (Registry.Get (APIRouter.agentHeartbeat now id hb m).2 id).map AgentInfo.lastSeen
      = some now
    ∧ (∀ v : AgentInfo,
        (Registry.Get (Registry.Update m id v) id).map AgentInfo.lastSeen
          = some v.lastSeen)
    ∧ (∀ ts : List Nat, List.Chain' (fun x y => x ≤ y) (now :: ts) →
        ∃ a', Registry.Get (runHeartbeats id hb ts (APIRouter.agentHeartbeat now id hb m).2)
            id = some a' ∧ now ≤ a'.lastSeen) := by
  refine ⟨?_, ?_, ?_⟩
  · rw [agentHeartbeat_get_known now id hb m a hid h]
    simpa using heartbeatMutate_lastSeen now hb a
  · intro v
    unfold Registry.Update
    unfold Registry.Get at h
    rw [h]
    simp [Registry.Get, mapFind_mapSet_self]
  · intro ts hc
    have hstep := agentHeartbeat_get_known now id hb m a hid h
    have hlast : ({ heartbeatMutate now hb a with id := id } : AgentInfo).lastSeen = now := by
      simpa using heartbeatMutate_lastSeen now hb a
    obtain ⟨a', hget, hle⟩ :=
      runHeartbeats_lastSeen_mono id hb hid ts (APIRouter.agentHeartbeat now id hb m).2 _
        hstep (by rw [hlast]; exact hc)
    exact ⟨a', hget, hlast ▸ hle⟩

/-- Claim C4, witness for the amended theorem at a concrete registry. -/
theorem heartbeat_lastSeen_monotone_witness :
    (Registry.Get (APIRouter.agentHeartbeat 20 "h1" hbEx [("h1", agentEx)]).2 "h1").map
        AgentInfo.lastSeen = some 20
    ∧ (∀ v : AgentInfo,
        (Registry.Get (Registry.Update [("h1", agentEx)] "h1" v) "h1").map
            AgentInfo.lastSeen = some v.lastSeen)
    ∧ (∀ ts : List Nat, List.Chain' (fun x y => x ≤ y) (20 :: ts) →
        ∃ a', Registry.Get
            (runHeartbeats "h1" hbEx ts
              (APIRouter.agentHeartbeat 20 "h1" hbEx [("h1", agentEx)]).2) "h1"
          = some a' ∧ 20 ≤ a'.lastSeen) :=
  heartbeat_lastSeen_monotone [("h1", agentEx)] "h1" agentEx 20 hbEx (by decide) (by decide)

/-- Claim C6, code bug, evaluated at the failing input.  For the
spec's own scenario — command "sleep 10" with timeout 1s — the process
is started, runs past the deadline and is killed, so CombinedOutput
returns the killed process's ExitError; the guard
`err == context.DeadlineExceeded` in ExecuteCommand is false on that
path (the sentinel is only returned when the deadline had expired
before the process started), so the reported error is "signal: killed"
with no timeout indication, even though the code's own unreached
branch builds a "command timeout after ..." message.  Within the
deadline, success is exit-status zero, as claimed. -/
theorem executeCommand_timeout_not_indicated :
    (TaskExecutor.ExecuteCommand 30 "sleep 10" 1 (ExecOutcome.killedOnDeadline "")).success
        = false
    ∧ (TaskExecutor.ExecuteCommand 30 "sleep 10" 1 (ExecOutcome.killedOnDeadline "")).error
        = "signal: killed"
    ∧ (TaskExecutor.ExecuteCommand 30 "sleep 10" 1 (ExecOutcome.killedOnDeadline "")).error
        ≠ "command timeout after 1s"
    ∧ (TaskExecutor.ExecuteCommand 30 "true" 1 (ExecOutcome.finished 0 "")).success = true
    ∧ (TaskExecutor.ExecuteCommand 30 "false" 1 (ExecOutcome.finished 1 "")).success
        = false := by
  decide

/-- Claim C7.  One pass of the registry sweep sets every agent silent
for more than the 5-minute threshold to offline — the unconditional
assignment agrees with the claim's "not already offline" reading
because re-assigning "offline" is the identity on the stored state —
leaves every agent with a recent lastSeen unchanged, never removes or
adds an entry, and runs on the 1-minute tick with the 5-minute
threshold. -/
theorem sweep_marks_stale_offline (now : Nat) (m : RegState) (id : String)
    (a : AgentInfo) (h : Registry.Get m id = some a) :
    Registry.Get (Registry.cleanupStaleAgents now m) id
      = some (if now - a.lastSeen > offlineThreshold
          then { a with status := "offline" } else a)
    ∧ (∀ id', (Registry.Get (Registry.cleanupStaleAgents now m) id').isSome
        = (Registry.Get m id').isSome)
    ∧ (∀ b : AgentInfo, b.status = "offline" → ({ b with status := "offline" } : AgentInfo) = b)
    ∧ sweepInterval = 60 ∧ offlineThreshold = 300 := by
  refine ⟨?_, ?_, ?_, rfl, rfl⟩
  · unfold Registry.Get at h
    unfold Registry.Get Registry.cleanupStaleAgents
    rw [mapFind_map_value (sweepAgent now) m id, h]
    simp [sweepAgent]
  · intro id'
    simp [Registry.cleanupStaleAgents, Registry.Get, mapFind_map_value]
  · intro b hb
    cases b
    simp only at hb
    simp [hb]

/-- Claim C7, witness at a registry holding one stale and one fresh
agent, swept at time 400. -/
theorem sweep_marks_stale_offline_witness :
    Registry.Get (Registry.cleanupStaleAgents 400 [("h1", agentEx)]) "h1"
      = some (if 400 - agentEx.lastSeen > offlineThreshold
          then { agentEx with status := "offline" } else agentEx)
    ∧ (∀ id', (Registry.Get (Registry.cleanupStaleAgents 400 [("h1", agentEx)]) id').isSome
        = (Registry.Get [("h1", agentEx)] id').isSome)
    ∧ (∀ b : AgentInfo, b.status = "offline" → ({ b with status := "offline" } : AgentInfo) = b)
    ∧ sweepInterval = 60 ∧ offlineThreshold = 300 :=
  sweep_marks_stale_offline 400 [("h1", agentEx)] "h1" agentEx (by decide)

/-- Claim C8.  Registration through the handler always succeeds and
returns the hostname as the stable id; the stored entry is online with
registeredAt and lastSeen stamped now; other entries are untouched;
when the hostname already exists the entry count does not grow (the
existing entry is overwritten, no error and no second entry); and a
re-registration with the same hostname returns the same id as the
first registration. -/
theorem register_idempotent_on_hostname (now now2 : Nat) (suffix suffix2 : String)
    (req req2 : RegisterRequest) (m : RegState) (hh : req2.hostname = req.hostname) :
    (APIRouter.registerAgent now suffix req m).1 = req.hostname
    ∧ (∃ a, Registry.Get (APIRouter.registerAgent now suffix req m).2 req.hostname = some a
        ∧ a.id = req.hostname ∧ a.hostname = req.hostname ∧ a.status = "online"
        ∧ a.registeredAt = now ∧ a.lastSeen = now)
    ∧ (∀ k, k ≠ req.hostname →
        Registry.Get (APIRouter.registerAgent now suffix req m).2 k = Registry.Get m k)
    ∧ ((Registry.Get m req.hostname).isSome →
        (APIRouter.registerAgent now suffix req m).2.length = m.length)
    ∧ (APIRouter.registerAgent now2 suffix2 req2
          (APIRouter.registerAgent now suffix req m).2).1
        = (APIRouter.registerAgent now suffix req m).1 := by
  refine ⟨rfl, ?_, ?_, ?_, ?_⟩
  · have hg : Registry.Get (APIRouter.registerAgent now suffix req m).2 req.hostname
        = some { id := req.hostname, hostname := req.hostname, cpuType := req.cpuType,
                 cpuLogic := req.cpuLogic, memory := req.memory, status := "online",
                 registeredAt := now, lastSeen := now, attrs := req.attrs } := by
      simp [APIRouter.registerAgent, Registry.Register, Registry.Get, mapFind_mapSet_self]
    exact ⟨_, hg, rfl, rfl, rfl, rfl, rfl⟩
  · intro k hk
    simp [APIRouter.registerAgent, Registry.Register, Registry.Get,
      mapFind_mapSet_ne _ _ _ _ (fun e => hk e.symm)]
  · intro hs
    rw [Option.isSome_iff_exists] at hs
    obtain ⟨w, hw⟩ := hs
    simpa [APIRouter.registerAgent, Registry.Register] using
      length_mapSet_of_found m req.hostname _ w hw
  · simp [APIRouter.registerAgent, Registry.Register, hh]

/-- Claim C8, witness: registering the same hostname twice at a
concrete registry. -/
theorem register_idempotent_on_hostname_witness :
    (APIRouter.registerAgent 7 "abc" reqEx []).1 = reqEx.hostname
    ∧ (∃ a, Registry.Get (APIRouter.registerAgent 7 "abc" reqEx []).2 reqEx.hostname
          = some a
        ∧ a.id = reqEx.hostname ∧ a.hostname = reqEx.hostname ∧ a.status = "online"
        ∧ a.registeredAt = 7 ∧ a.lastSeen = 7)
    ∧ (∀ k, k ≠ reqEx.hostname →
        Registry.Get (APIRouter.registerAgent 7 "abc" reqEx []).2 k
          = Registry.Get [] k)
    ∧ ((Registry.Get ([] : RegState) reqEx.hostname).isSome →
        (APIRouter.registerAgent 7 "abc" reqEx []).2.length = ([] : RegState).length)
    ∧ (APIRouter.registerAgent 9 "xyz" reqEx
          (APIRouter.registerAgent 7 "abc" reqEx []).2).1
        = (APIRouter.registerAgent 7 "abc" reqEx []).1 :=
  register_idempotent_on_hostname 7 9 "abc" "xyz" reqEx reqEx [] (by decide)

/-- Claim C9.  When `os.CreateTemp` succeeds it yields a freshly
created, uniquely named file (the name is not a pre-existing one — the
freshness hypothesis is exactly CreateTemp's contract); ExecuteScript
then removes that file on every exit path after its creation — write
failure, chmod failure, normal completion or deadline kill alike — so
the final filesystem equals the initial one and the temporary file
does not exist after the call returns; the first event is the
creation, the last is the removal, and whenever execution happened at
all, the file had been made executable before it ran. -/
theorem executeScript_removes_tmp (defaultTimeout : Nat) (script : String)
    (timeout : Int) (fs : List String) (env : ScriptEnv)
    (hc : env.createOk = true) (hf : env.tmpName ∉ fs) :
    (TaskExecutor.ExecuteScript defaultTimeout script timeout fs env).2.1 = fs
    ∧ env.tmpName ∉ (TaskExecutor.ExecuteScript defaultTimeout script timeout fs env).2.1
    ∧ (TaskExecutor.ExecuteScript defaultTimeout script timeout fs env).2.2.head?
        = some (ScriptEvent.created env.tmpName)
    ∧ (TaskExecutor.ExecuteScript defaultTimeout script timeout fs env).2.2.getLast?
        = some (ScriptEvent.removed env.tmpName)
    ∧ (ScriptEvent.executed env.tmpName
          ∈ (TaskExecutor.ExecuteScript defaultTimeout script timeout fs env).2.2 →
        (TaskExecutor.ExecuteScript defaultTimeout script timeout fs env).2.2
          = [ScriptEvent.created env.tmpName, ScriptEvent.wrote env.tmpName,
             ScriptEvent.madeExecutable env.tmpName, ScriptEvent.executed env.tmpName,
             ScriptEvent.removed env.tmpName]) := by
  have herase : (env.tmpName :: fs).erase env.tmpName = fs := List.erase_cons_head _ _
  unfold TaskExecutor.ExecuteScript
  rw [hc]
  have hnotin : env.tmpName ∉ (env.tmpName :: fs).erase env.tmpName := by
    rw [herase]
    exact hf
  by_cases hw : env.writeOk = false
  · rw [if_neg (by simp), if_pos hw]
    refine ⟨herase, hnotin, rfl, rfl, ?_⟩
    intro hmem
    simp at hmem
  · rw [if_neg (by simp), if_neg hw]
    by_cases hch : env.chmodOk = false
    · rw [if_pos hch]
      refine ⟨herase, hnotin, rfl, rfl, ?_⟩
      intro hmem
      simp at hmem
    · rw [if_neg hch]
      exact ⟨herase, hnotin, rfl, rfl, fun _ => rfl⟩

/-- Claim C9, witness at a concrete filesystem and a successful run. -/
theorem executeScript_removes_tmp_witness :
    (TaskExecutor.ExecuteScript 30 "echo ok" 60 ["keep.txt"] scriptEnvEx).2.1 = ["keep.txt"]
    ∧ scriptEnvEx.tmpName
        ∉ (TaskExecutor.ExecuteScript 30 "echo ok" 60 ["keep.txt"] scriptEnvEx).2.1
    ∧ (TaskExecutor.ExecuteScript 30 "echo ok" 60 ["keep.txt"] scriptEnvEx).2.2.head?
        = some (ScriptEvent.created scriptEnvEx.tmpName)
    ∧ (TaskExecutor.ExecuteScript 30 "echo ok" 60 ["keep.txt"] scriptEnvEx).2.2.getLast?
        = some (ScriptEvent.removed scriptEnvEx.tmpName)
    ∧ (ScriptEvent.executed scriptEnvEx.tmpName
          ∈ (TaskExecutor.ExecuteScript 30 "echo ok" 60 ["keep.txt"] scriptEnvEx).2.2 →
        (TaskExecutor.ExecuteScript 30 "echo ok" 60 ["keep.txt"] scriptEnvEx).2.2
          = [ScriptEvent.created scriptEnvEx.tmpName, ScriptEvent.wrote scriptEnvEx.tmpName,
             ScriptEvent.madeExecutable scriptEnvEx.tmpName,
             ScriptEvent.executed scriptEnvEx.tmpName,
             ScriptEvent.removed scriptEnvEx.tmpName]) :=
  executeScript_removes_tmp 30 "echo ok" 60 ["keep.txt"] scriptEnvEx (by decide) (by decide)

/-- Claim C10.  Registry.Update on an id that is absent from the
registry leaves the registry completely unchanged — it never inserts —
and the heartbeat handler still answers HTTP 200 for such an id while
creating and modifying nothing; on any registry where the id is
present, the updated entry's ID field is forced back to the map key
regardless of the ID the supplied value carries. -/
theorem update_unknown_id_frame (m : RegState) (id : String) (v : AgentInfo)
    (now : Nat) (hb : HeartbeatData) (hid : id ≠ "") (h : Registry.Get m id = none) :
    Registry.Update m id v = m
    ∧ (APIRouter.agentHeartbeat now id hb m).1 = 200
    ∧ (APIRouter.agentHeartbeat now id hb m).2 = m
    ∧ (∀ (m' : RegState) (b : AgentInfo), Registry.Get m' id = some b →
        Registry.Get (Registry.Update m' id v) id = some { v with id := id }) := by
  unfold Registry.Get at h
  refine ⟨?_, ?_, ?_, ?_⟩
  · simp [Registry.Update, h]
  · unfold APIRouter.agentHeartbeat
    rw [if_pos hid]
    simp [Registry.Get, h]
  · unfold APIRouter.agentHeartbeat
    rw [if_pos hid]
    simp [Registry.Get, h]
  · intro m' b hb'
    unfold Registry.Get at hb'
    simp [Registry.Update, hb', Registry.Get, mapFind_mapSet_self]

/-- Claim C10, witness: a heartbeat for the unknown id "ghost" against
a one-agent registry. -/
theorem update_unknown_id_frame_witness :
    Registry.Update [("h1", agentEx)] "ghost" agentEx = [("h1", agentEx)]
    ∧ (APIRouter.agentHeartbeat 20 "ghost" hbEx [("h1", agentEx)]).1 = 200
    ∧ (APIRouter.agentHeartbeat 20 "ghost" hbEx [("h1", agentEx)]).2 = [("h1", agentEx)]
    ∧ (∀ (m' : RegState) (b : AgentInfo), Registry.Get m' "ghost" = some b →
        Registry.Get (Registry.Update m' "ghost" agentEx) "ghost"
          = some { agentEx with id := "ghost" }) :=
  update_unknown_id_frame [("h1", agentEx)] "ghost" agentEx 20 hbEx (by decide) (by decide)

end Nerve
